import Mathlib

/-!
Verification development for the ai-gateway route-execution engine.

The Go source is embedded shallowly:

* JSON documents are modelled by the inductive `Json` tree; Go's
  `map[string]interface{}` view of an object is modelled as the list of
  key/value pairs of the object (Go maps hold each key once; position in
  the list is immaterial to map semantics, and `encoding/json` re-emits
  maps with sorted keys, so only the key/value *set* is observable).
* Go byte strings are modelled as `List Nat` (one entry per byte) where
  byte-level behaviour matters (`truncateContent` uses Go `len` and
  slicing, which count bytes, not characters).
* Durations are nanosecond counts (`Nat`), as in Go's `time.Duration`.
* Fallible Go functions returning `(T, error)` become `Except String T`
  (or an error ADT whose constructors are the distinct `return nil, err`
  sites of the function).
* The network is abstracted as an oracle: the Manager's per-step
  `provider.Call(request)` outcome is a function from the step index to
  `Except String ChatResponse`, and `ExecuteWithTracing` additionally
  returns the list of step indices for which `Call` was invoked, in
  invocation order (pure instrumentation of the loop in manager.go).
-/

namespace AIGateway

/-- A JSON value.  Objects carry their fields as a key/value list;
numbers are modelled as integers (their exact numeric type is immaterial
to every property proved below). -/
inductive Json where
  | null : Json
  | bool (b : Bool) : Json
  | num (n : Int) : Json
  | str (s : String) : Json
  | arr (elems : List Json) : Json
  | obj (fields : List (String × Json)) : Json

/-- Go map read `m[k]`: the value bound to `k`, if any (first binding;
a Go map holds each key at most once). -/
def lookupKey {β : Type} : List (String × β) → String → Option β
  | [], _ => none
  | p :: rest, k => if p.1 = k then some p.2 else lookupKey rest k

/-- Go map membership test `_, ok := m[k]`. -/
def containsKey {β : Type} : List (String × β) → String → Bool
  | [], _ => false
  | p :: rest, k => (p.1 == k) || containsKey rest k

/-- Go map write `m[k] = v`: replace the binding of `k` when present,
otherwise add one. -/
def setKey {β : Type} (fields : List (String × β)) (k : String) (v : β) :
    List (String × β) :=
  if containsKey fields k then
    fields.map (fun p => if p.1 = k then (k, v) else p)
  else
    fields ++ [(k, v)]

/-- Go map delete `delete(m, k)`: drop every binding of `k` (a Go map
holds each key at most once, so at most one binding is dropped). -/
def delKey {β : Type} : List (String × β) → String → List (String × β)
  | [], _ => []
  | p :: rest, k => if p.1 = k then delKey rest k else p :: delKey rest k

/-- config.Provider (config/types.go): connection configuration only. -/
structure Provider where
  name : String
  apiKey : String
  baseURL : String
deriving DecidableEq

/-- config.RouteStep (config/types.go).  Optional fields are the empty
string when absent, as in Go. -/
structure RouteStep where
  provider : String
  model : String
  timeout : String
  conflictResolution : String
deriving DecidableEq

/-- config.Route (config/types.go). -/
structure Route where
  name : String
  steps : List RouteStep
deriving DecidableEq

/-- config.Config (config/types.go). -/
structure Config where
  apiKey : String
  port : Int
  defaultTimeout : String
  providers : List Provider
  routes : List Route
deriving DecidableEq

/-- Value of a decimal digit list. -/
def digitsToNat (ds : List Char) : Nat :=
  ds.foldl (fun acc c => acc * 10 + (c.toNat - 48)) 0

/-- Nanoseconds per Go duration unit. -/
def unitNanos : String → Option Nat
  | "ns" => some 1
  | "us" => some 1000
  | "ms" => some 1000000
  | "s" => some 1000000000
  | "m" => some 60000000000
  | "h" => some 3600000000000
  | _ => none

/-- Model of Go stdlib `time.ParseDuration`, restricted to the
`<decimal digits><unit>` shape used by this repository's configuration
("30s", "60s", "500ms", ...).  Returns the duration in nanoseconds, or
`none` on a malformed string (standing for the stdlib's parse error). -/
def parseDuration (s : String) : Option Nat :=
  let digits := s.toList.takeWhile Char.isDigit
  let rest := s.toList.dropWhile Char.isDigit
  if digits.isEmpty then none
  else
    match unitNanos (String.mk rest) with
    | some u => some (digitsToNat digits * u)
    | none => none

/-- 30 seconds in nanoseconds: the hard-coded fallback `30 * time.Second`. -/
def thirtySeconds : Nat := 30 * 1000000000

/-- config.GetTimeout (config/types.go lines 38-53): use the step timeout
when non-empty, else the given default; when both are empty, or the chosen
string fails to parse, fall back to 30 seconds. -/
def GetTimeout (stepTimeout defaultTimeout : String) : Nat :=
  let timeoutStr := if stepTimeout = "" then defaultTimeout else stepTimeout
  if timeoutStr = "" then thirtySeconds
  else
    match parseDuration timeoutStr with
    | some d => d
    | none => thirtySeconds

/-- providers.Client (client.go): the per-step provider client.  The
logger and the embedded http.Client (whose only datum relevant here is
its timeout, equal to `timeout`) are omitted. -/
structure Client where
  name : String
  apiKey : String
  baseURL : String
  model : String
  timeout : Nat
  conflictResolution : String
deriving DecidableEq

/-- providers.NewClientWithRouteStep (client.go lines 46-62).  Note the
call `config.GetTimeout(step.Timeout, "30s")`: the literal `"30s"` is
passed as the default. -/
def NewClientWithRouteStep (providerCfg : Provider) (step : RouteStep) :
    Client :=
  { name := providerCfg.name
    apiKey := providerCfg.apiKey
    baseURL := providerCfg.baseURL
    model := step.model
    timeout := GetTimeout step.timeout "30s"
    conflictResolution := step.conflictResolution }

/-- Modelled from the spec (§3, §4.2): the spec's resolution order for a
step's timeout — the step's own timeout when set, otherwise the
configured default timeout, otherwise the hard-coded fallback.  This
definition follows the spec's words and exists only to be compared with
the source-derived `NewClientWithRouteStep`. -/
def resolvedTimeoutSpec (cfg : Config) (step : RouteStep) : Nat :=
  if step.timeout ≠ "" then
    match parseDuration step.timeout with
    | some d => d
    | none => thirtySeconds
  else if cfg.defaultTimeout ≠ "" then
    match parseDuration cfg.defaultTimeout with
    | some d => d
    | none => thirtySeconds
  else thirtySeconds

/-- types.ChatRequest (types/types.go lines 224-227): the complete raw
JSON of the client request (none when never unmarshalled) plus the
extracted model. -/
structure ChatRequest where
  raw : Option Json
  model : String

/-- The single ASCII apostrophe, used by Go's error format strings. -/
def sq : String := String.mk [Char.ofNat 39]

/-- The `json:"model"` extraction performed by ChatRequest.UnmarshalJSON
via `json.Unmarshal(data, &temp)` into `struct { Model string }`:
fails on a non-object document or on a `model` value that is neither a
string nor null; an absent or null `model` leaves the zero value `""`. -/
def extractModel : Json → Except String String
  | Json.obj fields =>
    match lookupKey fields "model" with
    | none => Except.ok ""
    | some (Json.str s) => Except.ok s
    | some Json.null => Except.ok ""
    | some _ => Except.error "json: cannot unmarshal value into model field of type string"
  | _ => Except.error "json: cannot unmarshal value into struct"

/-- types.ChatRequest.UnmarshalJSON (types/types.go lines 230-243):
store the document verbatim in `raw` and extract `model`. -/
def chatRequestUnmarshal (data : Json) : Except String ChatRequest :=
  match extractModel data with
  | Except.ok m => Except.ok { raw := some data, model := m }
  | Except.error e => Except.error e

/-- types.ChatRequest.MarshalJSON (types/types.go lines 246-258): error
when `raw` is nil; otherwise unmarshal `raw` into a generic map (which
fails when `raw` is not an object), set `temp["model"] = r.Model`, and
re-marshal. -/
def chatRequestMarshal (r : ChatRequest) : Except String Json :=
  match r.raw with
  | none => Except.error "no raw JSON to marshal"
  | some (Json.obj fields) =>
      Except.ok (Json.obj (setKey fields "model" (Json.str r.model)))
  | some _ => Except.error "json: cannot unmarshal value into map"

/-- types.Usage (types/types.go). -/
structure Usage where
  promptTokens : Int
  completionTokens : Int
  totalTokens : Int

/-- types.Message (types/types.go): `Content` is a json.RawMessage and
keeps the content subtree verbatim (`none` when the key is absent,
matching a nil RawMessage). -/
structure Message where
  role : String
  content : Option Json

/-- types.Choice (types/types.go). -/
structure Choice where
  index : Int
  message : Message
  finishReason : String

/-- types.ChatResponse (types/types.go lines 296-306): the raw upstream
JSON plus the fields extracted for logging. -/
structure ChatResponse where
  raw : Option Json
  id : String
  object : String
  created : Int
  model : String
  choices : List Choice
  usage : Usage

/-- encoding/json decode of an object field into a Go `string`:
absent or null leaves the zero value, a string is taken verbatim,
anything else is a decode error. -/
def jsonGetString (fields : List (String × Json)) (k : String) :
    Except String String :=
  match lookupKey fields k with
  | none => Except.ok ""
  | some (Json.str s) => Except.ok s
  | some Json.null => Except.ok ""
  | some _ => Except.error "json: cannot unmarshal value into string field"

/-- encoding/json decode of an object field into a Go integer. -/
def jsonGetInt (fields : List (String × Json)) (k : String) :
    Except String Int :=
  match lookupKey fields k with
  | none => Except.ok 0
  | some (Json.num n) => Except.ok n
  | some Json.null => Except.ok 0
  | some _ => Except.error "json: cannot unmarshal value into integer field"

/-- encoding/json decode of a `types.Message`: `role` must decode as a
string; `content`, a json.RawMessage, receives the subtree verbatim. -/
def decodeMessage : Json → Except String Message
  | Json.null => Except.ok { role := "", content := none }
  | Json.obj fields =>
    match jsonGetString fields "role" with
    | Except.ok r => Except.ok { role := r, content := lookupKey fields "content" }
    | Except.error e => Except.error e
  | _ => Except.error "json: cannot unmarshal value into Message"

/-- encoding/json decode of a `types.Choice`. -/
def decodeChoice : Json → Except String Choice
  | Json.null => Except.ok { index := 0, message := { role := "", content := none }, finishReason := "" }
  | Json.obj fields =>
    match jsonGetInt fields "index" with
    | Except.error e => Except.error e
    | Except.ok i =>
      match (match lookupKey fields "message" with
             | none => Except.ok { role := "", content := none }
             | some j => decodeMessage j) with
      | Except.error e => Except.error e
      | Except.ok msg =>
        match jsonGetString fields "finish_reason" with
        | Except.error e => Except.error e
        | Except.ok fr => Except.ok { index := i, message := msg, finishReason := fr }
  | _ => Except.error "json: cannot unmarshal value into Choice"

/-- encoding/json decode of the `choices` array (absent or null gives
the zero value, an empty slice). -/
def decodeChoices (fields : List (String × Json)) :
    Except String (List Choice) :=
  match lookupKey fields "choices" with
  | none => Except.ok []
  | some Json.null => Except.ok []
  | some (Json.arr xs) => xs.mapM decodeChoice
  | some _ => Except.error "json: cannot unmarshal value into Choice slice"

/-- encoding/json decode of the `usage` object (absent or null gives the
zero value). -/
def decodeUsage (fields : List (String × Json)) : Except String Usage :=
  match lookupKey fields "usage" with
  | none => Except.ok { promptTokens := 0, completionTokens := 0, totalTokens := 0 }
  | some Json.null => Except.ok { promptTokens := 0, completionTokens := 0, totalTokens := 0 }
  | some (Json.obj ufields) =>
    match jsonGetInt ufields "prompt_tokens" with
    | Except.error e => Except.error e
    | Except.ok pt =>
      match jsonGetInt ufields "completion_tokens" with
      | Except.error e => Except.error e
      | Except.ok ct =>
        match jsonGetInt ufields "total_tokens" with
        | Except.error e => Except.error e
        | Except.ok tt => Except.ok { promptTokens := pt, completionTokens := ct, totalTokens := tt }
  | some _ => Except.error "json: cannot unmarshal value into Usage"

/-- types.ChatResponse.UnmarshalJSON (types/types.go lines 309-332):
store the upstream document verbatim in `raw`, then extract the logging
fields through the anonymous temp struct; any extraction failure fails
the whole unmarshal. -/
def chatResponseUnmarshal (data : Json) : Except String ChatResponse :=
  match data with
  | Json.obj fields =>
    match jsonGetString fields "id" with
    | Except.error e => Except.error e
    | Except.ok i =>
      match jsonGetString fields "object" with
      | Except.error e => Except.error e
      | Except.ok o =>
        match jsonGetInt fields "created" with
        | Except.error e => Except.error e
        | Except.ok cr =>
          match jsonGetString fields "model" with
          | Except.error e => Except.error e
          | Except.ok m =>
            match decodeChoices fields with
            | Except.error e => Except.error e
            | Except.ok cs =>
              match decodeUsage fields with
              | Except.error e => Except.error e
              | Except.ok u =>
                Except.ok { raw := some data, id := i, object := o,
                            created := cr, model := m, choices := cs, usage := u }
  | _ => Except.error "json: cannot unmarshal value into struct"

/-- types.ChatResponse.MarshalJSON (types/types.go lines 335-340): error
when `raw` is nil, otherwise return `raw` itself, untouched. -/
def chatResponseMarshal (r : ChatResponse) : Except String Json :=
  match r.raw with
  | none => Except.error "no raw JSON to marshal"
  | some j => Except.ok j

/-- providers.Client.applyConflictResolution (client.go lines 132-159):
parse `request.Raw` into a generic map (error when it is nil or not an
object), then delete `response_format` under the `"tools"` directive,
delete `tools` under the `"format"` directive, or — for any other
directive value — return before touching the request, leaving `Raw`
unchanged.  In the first two cases the modified map is re-marshalled
into `Raw`. -/
def applyConflictResolution (c : Client) (request : ChatRequest) :
    Except String ChatRequest :=
  match request.raw with
  | some (Json.obj fields) =>
    match c.conflictResolution with
    | "tools" =>
        Except.ok { request with raw := some (Json.obj (delKey fields "response_format")) }
    | "format" =>
        Except.ok { request with raw := some (Json.obj (delKey fields "tools")) }
    | _ => Except.ok request
  | _ => Except.error "failed to parse request JSON"

/-- The request-mutation prefix of providers.Client.Call (client.go
lines 76-85): override `request.Model` with the step's model, then apply
conflict resolution only when a directive is set. -/
def prepareCallRequest (c : Client) (request : ChatRequest) :
    Except String ChatRequest :=
  let request := { request with model := c.model }
  if c.conflictResolution ≠ "" then
    match applyConflictResolution c request with
    | Except.ok r => Except.ok r
    | Except.error e => Except.error ("failed to apply conflict resolution: " ++ e)
  else
    Except.ok request

/-- The distinct failure returns of providers.Client.Call (client.go):
each constructor is one `return nil, fmt.Errorf(...)` site, carrying the
data the format string embeds. -/
inductive CallError where
  | conflictResolution (msg : String) : CallError
  | marshalRequest (msg : String) : CallError
  | transport (msg : String) : CallError
  | readBody (msg : String) : CallError
  | upstreamStatus (status : Nat) (body : String) : CallError
  | parse (msg : String) : CallError
deriving DecidableEq

/-- The response-handling suffix of providers.Client.Call (client.go
lines 117-128), given the HTTP status and body already read:
`if resp.StatusCode != http.StatusOK` (200) fail with the status error
carrying the status and the raw body; otherwise unmarshal the body into
a ChatResponse (`parseResp` stands for `json.Unmarshal(body, &response)`
on the body bytes) and fail with the parse error when that fails. -/
def callHandleResponse (parseResp : String → Except String ChatResponse)
    (status : Nat) (body : String) : Except CallError ChatResponse :=
  if status ≠ 200 then
    Except.error (CallError.upstreamStatus status body)
  else
    match parseResp body with
    | Except.ok response => Except.ok response
    | Except.error _ => Except.error (CallError.parse "failed to parse response")

/-- types.RouteStepError (types/types.go lines 30-35). -/
structure RouteStepError where
  stepIndex : Nat
  provider : String
  model : String
  error : String
deriving DecidableEq

/-- types.RouteError (types/types.go lines 24-27). -/
structure RouteError where
  route : Route
  errors : List RouteStepError
deriving DecidableEq

/-- The distinct failure returns of providers.Manager.ExecuteWithTracing
(manager.go): the wrapped route-lookup error, the fatal
missing-provider configuration error, and the aggregate RouteError. -/
inductive ExecError where
  | routeLookup (msg : String) : ExecError
  | providerNotFound (routeName : String) (stepIndex : Nat) (providerName : String) : ExecError
  | routeError (e : RouteError) : ExecError
deriving DecidableEq

/-- providers.Manager (manager.go lines 192-197): the provider map and
the route list (logger and tracer omitted). -/
structure Manager where
  providerMap : List (String × Provider)
  routes : List Route

/-- providers.NewManager (manager.go lines 200-213): build the provider
map by inserting each provider under its name, in order (later entries
overwrite earlier ones, as in a Go map). -/
def NewManager (providers : List Provider) (routes : List Route) : Manager :=
  { providerMap := providers.foldl (fun m p => setKey m p.name p) []
    routes := routes }

/-- The loop of providers.Manager.GetRoute (manager.go lines 216-223). -/
def getRouteLoop (model : String) : List Route → Except String Route
  | [] => Except.error ("no route found for model " ++ sq ++ model ++ sq)
  | route :: rest =>
      if route.name = model then Except.ok route else getRouteLoop model rest

/-- providers.Manager.GetRoute (manager.go lines 216-223): first route
whose name equals the model string exactly. -/
def GetRoute (m : Manager) (model : String) : Except String Route :=
  getRouteLoop model m.routes

/-- The step loop of providers.Manager.ExecuteWithTracing (manager.go
lines 252-351), instrumented with the list of step indices for which
`provider.Call` was invoked, in invocation order.  `outcome i` is the
result of the network call made at step index `i`; `acc` is the
`stepErrors` slice accumulated so far; `idx` is the index of the first
step of the remaining list `l`. -/
def runSteps (m : Manager) (route : Route)
    (outcome : Nat → Except String ChatResponse) :
    Nat → List RouteStep → List RouteStepError →
    List Nat × Except ExecError ChatResponse
  | _, [], acc => ([], Except.error (ExecError.routeError { route := route, errors := acc }))
  | idx, step :: rest, acc =>
    match lookupKey m.providerMap step.provider with
    | none => ([], Except.error (ExecError.providerNotFound route.name idx step.provider))
    | some _ =>
      match outcome idx with
      | Except.ok response => ([idx], Except.ok response)
      | Except.error e =>
        let r := runSteps m route outcome (idx + 1) rest
          (acc ++ [{ stepIndex := idx, provider := step.provider,
                     model := step.model, error := e }])
        (idx :: r.1, r.2)

/-- providers.Manager.ExecuteWithTracing (manager.go lines 231-351):
resolve the route for the request's model (wrapping a lookup failure),
then run the steps in order starting from the empty error slice.  The
first component is the instrumentation trace: the indices of the steps
whose `Call` was invoked, in order. -/
def ExecuteWithTracing (m : Manager)
    (outcome : Nat → Except String ChatResponse) (request : ChatRequest) :
    List Nat × Except ExecError ChatResponse :=
  match GetRoute m request.model with
  | Except.error e => ([], Except.error (ExecError.routeLookup ("route lookup failed: " ++ e)))
  | Except.ok route => runSteps m route outcome 0 route.steps []

/-- The truncation marker `"..."`, as bytes. -/
def truncDots : List Nat := [46, 46, 46]

/-- types.truncateContent (types/types.go lines 48-54) at the byte
level: Go `len(content)` counts bytes and `content[:100]` slices bytes,
so the function keeps a string of at most 100 bytes and otherwise keeps
its first 100 bytes and appends `"..."`. -/
def truncateContent (content : List Nat) : List Nat :=
  if content.length ≤ 100 then content else content.take 100 ++ truncDots

/-- Whether a byte is a UTF-8 continuation byte (`10xxxxxx`). -/
def utf8IsContinuation (b : Nat) : Bool :=
  decide (128 ≤ b ∧ b < 192)

/-- The number of characters (code points) in a valid UTF-8 byte string:
one per non-continuation byte. -/
def utf8CharCount (s : List Nat) : Nat :=
  (s.filter (fun b => !(utf8IsContinuation b))).length

/-- The two UTF-8 bytes of the character `é` (U+00E9). -/
def eAcute : List Nat := [195, 169]

/-- 51 copies of `é`: 51 characters, 102 bytes. -/
def longAccented : List Nat := (List.replicate 51 eAcute).flatten

/-- Sample per-step client with the `"tools"` directive, for witnesses. -/
def sampleClientTools : Client :=
  { name := "p", apiKey := "k", baseURL := "u", model := "m2", timeout := 5,
    conflictResolution := "tools" }

/-- Sample request object fields carrying both competing keys and an
unrelated key, for witnesses. -/
def sampleFields : List (String × Json) :=
  [("tools", Json.arr []), ("response_format", Json.obj []), ("temperature", Json.num 1)]

/-- Sample request built on `sampleFields`, for witnesses. -/
def sampleRequest : ChatRequest :=
  { raw := some (Json.obj sampleFields), model := "m" }

/-- Sample upstream response document, for witnesses. -/
def sampleRespJson : Json := Json.obj [("id", Json.str "resp-1")]

/-- The ChatResponse parsed from `sampleRespJson`, for witnesses. -/
def sampleResponse : ChatResponse :=
  { raw := some sampleRespJson, id := "resp-1", object := "", created := 0,
    model := "", choices := [],
    usage := { promptTokens := 0, completionTokens := 0, totalTokens := 0 } }

/-- The step-error list the Manager accumulates when the calls at
indices `s, s+1, ...` all fail with messages `msgs s, msgs (s+1), ...`:
one RouteStepError per step, in step order, carrying the step's own
index, provider and model. -/
def expectedStepErrors (msgs : Nat → String) : Nat → List RouteStep → List RouteStepError
  | _, [] => []
  | s, step :: rest =>
    { stepIndex := s, provider := step.provider, model := step.model, error := msgs s }
      :: expectedStepErrors msgs (s + 1) rest

/-- Sample providers for witnesses. -/
def sampleProvider1 : Provider := { name := "p1", apiKey := "k1", baseURL := "u1" }

/-- Second sample provider for witnesses. -/
def sampleProvider2 : Provider := { name := "p2", apiKey := "k2", baseURL := "u2" }

/-- Sample route step (no timeout, no directive) for witnesses. -/
def sampleStep1 : RouteStep :=
  { provider := "p1", model := "m1", timeout := "", conflictResolution := "" }

/-- Second sample route step for witnesses. -/
def sampleStep2 : RouteStep :=
  { provider := "p2", model := "m2", timeout := "", conflictResolution := "" }

/-- Sample route step carrying its own timeout, for witnesses. -/
def sampleStepTimeout : RouteStep :=
  { provider := "p1", model := "m1", timeout := "45s", conflictResolution := "" }

/-- Sample two-step route for witnesses. -/
def sampleRoute : Route := { name := "r", steps := [sampleStep1, sampleStep2] }

/-- Sample manager over the sample providers and route, for witnesses. -/
def sampleManager : Manager :=
  NewManager [sampleProvider1, sampleProvider2] [sampleRoute]

/-- Sample request addressed to the sample route, for witnesses. -/
def sampleExecRequest : ChatRequest := { raw := some (Json.obj []), model := "r" }

/-- Sample call oracle whose step 0 fails and whose later steps succeed,
for witnesses. -/
def sampleOutcome : Nat → Except String ChatResponse :=
  fun i => if i = 0 then Except.error "boom" else Except.ok sampleResponse

/-- Sample call oracle whose every step fails, for witnesses. -/
def sampleOutcomeFail : Nat → Except String ChatResponse :=
  fun _ => Except.error "boom"

/-- Sample configuration with a configured default timeout of 60s, for
the C6 comparison. -/
def sampleCfg : Config :=
  { apiKey := "", port := 8080, defaultTimeout := "60s",
    providers := [sampleProvider1], routes := [sampleRoute] }

/-- A body decoder that always succeeds (standing for a body that is
valid JSON), for witnesses. -/
def okParse : String → Except String ChatResponse := fun _ => Except.ok sampleResponse

/-! ### Helper lemmas about the Go-map model -/

theorem lookupKey_append {β : Type} (xs ys : List (String × β)) (k : String) :
    lookupKey (xs ++ ys) k =
      (match lookupKey xs k with
       | some v => some v
       | none => lookupKey ys k) := by
  induction xs with
  | nil => simp [lookupKey]
  | cons p rest ih =>
    by_cases h : p.1 = k
    · simp [lookupKey, h]
    · simp [lookupKey, h, ih]

theorem lookupKey_eq_none_of_not_contains {β : Type}
    (fields : List (String × β)) (k : String)
    (h : containsKey fields k = false) : lookupKey fields k = none := by
  induction fields with
  | nil => rfl
  | cons p rest ih =>
    simp only [containsKey, Bool.or_eq_false_iff] at h
    obtain ⟨h1, h2⟩ := h
    have hne : p.1 ≠ k := by simpa using h1
    simp [lookupKey, hne, ih h2]

theorem lookupKey_map_setEntry_self {β : Type}
    (fields : List (String × β)) (k : String) (v : β)
    (h : containsKey fields k = true) :
    lookupKey (fields.map (fun p => if p.1 = k then (k, v) else p)) k = some v := by
  induction fields with
  | nil => simp [containsKey] at h
  | cons p rest ih =>
    by_cases hp : p.1 = k
    · simp [lookupKey, hp]
    · have h2 : containsKey rest k = true := by
        simpa [containsKey, hp] using h
      simp [lookupKey, hp, ih h2]

theorem lookupKey_map_setEntry_ne {β : Type}
    (fields : List (String × β)) (k q : String) (v : β) (hq : q ≠ k) :
    lookupKey (fields.map (fun p => if p.1 = k then (k, v) else p)) q =
      lookupKey fields q := by
  induction fields with
  | nil => rfl
  | cons p rest ih =>
    by_cases hp : p.1 = k
    · have hk : ¬(k = q) := fun h => hq h.symm
      have hpq : ¬(p.1 = q) := by rw [hp]; exact hk
      simp only [List.map_cons, lookupKey, if_pos hp]
      simp [hk, hpq, ih]
    · simp only [List.map_cons, lookupKey, if_neg hp]
      by_cases hpq : p.1 = q
      · simp [hpq]
      · simp [hpq, ih]

theorem keys_map_setEntry {β : Type}
    (fields : List (String × β)) (k : String) (v : β) :
    (fields.map (fun p => if p.1 = k then (k, v) else p)).map Prod.fst =
      fields.map Prod.fst := by
  induction fields with
  | nil => rfl
  | cons p rest ih =>
    have hhead : (if p.1 = k then (k, v) else p).1 = p.1 := by
      by_cases hp : p.1 = k
      · simp [hp]
      · simp [hp]
    simp only [List.map_cons]
    rw [hhead, ih]

theorem lookupKey_setKey_self {β : Type}
    (fields : List (String × β)) (k : String) (v : β) :
    lookupKey (setKey fields k v) k = some v := by
  unfold setKey
  cases hc : containsKey fields k with
  | true => simp [lookupKey_map_setEntry_self _ _ _ hc]
  | false =>
    simp only [Bool.false_eq_true, if_false, lookupKey_append,
      lookupKey_eq_none_of_not_contains _ _ hc]
    simp [lookupKey]

theorem lookupKey_setKey_ne {β : Type}
    (fields : List (String × β)) (k q : String) (v : β) (hq : q ≠ k) :
    lookupKey (setKey fields k v) q = lookupKey fields q := by
  unfold setKey
  cases hc : containsKey fields k with
  | true => simp [lookupKey_map_setEntry_ne _ _ _ _ hq]
  | false =>
    have hk : ¬(k = q) := fun h => hq h.symm
    simp only [Bool.false_eq_true, if_false, lookupKey_append]
    cases hl : lookupKey fields q with
    | some v' => simp
    | none => simp [lookupKey, hk]

theorem keys_setKey_of_contains {β : Type}
    (fields : List (String × β)) (k : String) (v : β)
    (h : containsKey fields k = true) :
    (setKey fields k v).map Prod.fst = fields.map Prod.fst := by
  unfold setKey
  rw [if_pos h]
  exact keys_map_setEntry _ _ _

theorem setKey_of_not_contains {β : Type}
    (fields : List (String × β)) (k : String) (v : β)
    (h : containsKey fields k = false) :
    setKey fields k v = fields ++ [(k, v)] := by
  unfold setKey
  simp [h]

theorem lookupKey_delKey_self {β : Type}
    (fields : List (String × β)) (k : String) :
    lookupKey (delKey fields k) k = none := by
  induction fields with
  | nil => rfl
  | cons p rest ih =>
    by_cases hp : p.1 = k
    · simpa [delKey, hp] using ih
    · simpa [delKey, hp, lookupKey] using ih

theorem lookupKey_delKey_ne {β : Type}
    (fields : List (String × β)) (k q : String) (hq : q ≠ k) :
    lookupKey (delKey fields k) q = lookupKey fields q := by
  induction fields with
  | nil => rfl
  | cons p rest ih =>
    by_cases hp : p.1 = k
    · have hpq : ¬(p.1 = q) := by rw [hp]; exact fun h => hq h.symm
      simp only [delKey, if_pos hp, lookupKey, if_neg hpq]
      exact ih
    · simp only [delKey, if_neg hp, lookupKey]
      by_cases hpq : p.1 = q
      · simp [hpq]
      · simp [hpq, ih]

theorem keys_delKey {β : Type}
    (fields : List (String × β)) (k : String) :
    (delKey fields k).map Prod.fst =
      (fields.map Prod.fst).filter (fun x => !(x == k)) := by
  induction fields with
  | nil => rfl
  | cons p rest ih =>
    by_cases hp : p.1 = k
    · have hb : (p.1 == k) = true := by simpa using hp
      simp [delKey, hp, List.filter_cons, hb, ih]
    · have hb : (p.1 == k) = false := by simpa using hp
      simp [delKey, hp, List.filter_cons, hb, ih]

/-! ### C1: model override round trip -/

/-- C1: for every JSON document `D` (an object) containing a `model`
field, deserializing `D` into a ChatRequest, setting its Model field to
`mNew`, and re-serializing yields a document preserving every key/value
of `D` except `model`, whose value is `mNew`; the key set is unchanged
(no key added, removed, or lost, including unknown fields). -/
theorem C1_model_override_roundtrip
    (fields : List (String × Json)) (r : ChatRequest) (mNew : String)
    (hmodel : containsKey fields "model" = true)
    (hparse : chatRequestUnmarshal (Json.obj fields) = Except.ok r) :
    ∃ fieldsOut,
      chatRequestMarshal { r with model := mNew } = Except.ok (Json.obj fieldsOut) ∧
      lookupKey fieldsOut "model" = some (Json.str mNew) ∧
      (∀ k, k ≠ "model" → lookupKey fieldsOut k = lookupKey fields k) ∧
      fieldsOut.map Prod.fst = fields.map Prod.fst := by
  have hraw : r.raw = some (Json.obj fields) := by
    unfold chatRequestUnmarshal at hparse
    cases he : extractModel (Json.obj fields) with
    | ok m => rw [he] at hparse; injection hparse with h; rw [← h]
    | error e => rw [he] at hparse; exact Except.noConfusion hparse
  refine ⟨setKey fields "model" (Json.str mNew), ?_, ?_, ?_, ?_⟩
  · show chatRequestMarshal _ = _
    unfold chatRequestMarshal
    simp [hraw]
  · exact lookupKey_setKey_self _ _ _
  · intro k hk
    exact lookupKey_setKey_ne _ _ _ _ hk
  · exact keys_setKey_of_contains _ _ _ hmodel

/-- Witness for C1 at a concrete document with an unknown field. -/
theorem C1_model_override_roundtrip_witness :
    containsKey [("model", Json.str "gpt"), ("custom", Json.num 42)] "model" = true ∧
    chatRequestUnmarshal (Json.obj [("model", Json.str "gpt"), ("custom", Json.num 42)]) =
      Except.ok { raw := some (Json.obj [("model", Json.str "gpt"), ("custom", Json.num 42)]),
                  model := "gpt" } ∧
    ∃ fieldsOut,
      chatRequestMarshal
          { raw := some (Json.obj [("model", Json.str "gpt"), ("custom", Json.num 42)]),
            model := "claude" } = Except.ok (Json.obj fieldsOut) ∧
      lookupKey fieldsOut "model" = some (Json.str "claude") ∧
      (∀ k, k ≠ "model" →
        lookupKey fieldsOut k =
          lookupKey [("model", Json.str "gpt"), ("custom", Json.num 42)] k) ∧
      fieldsOut.map Prod.fst =
        [("model", Json.str "gpt"), ("custom", Json.num 42)].map Prod.fst :=
  ⟨rfl, rfl,
    C1_model_override_roundtrip
      [("model", Json.str "gpt"), ("custom", Json.num 42)]
      { raw := some (Json.obj [("model", Json.str "gpt"), ("custom", Json.num 42)]),
        model := "gpt" }
      "claude" rfl rfl⟩

/-! ### C10: marshalling inserts a missing model key -/

/-- C10: for a ChatRequest whose raw JSON (an object) has no `model`
key, MarshalJSON appends a `model` key bound to the request's Model
value: the output is the original document plus that one key, with every
original key/value preserved. -/
theorem C10_marshal_inserts_model
    (fields : List (String × Json)) (r : ChatRequest)
    (hraw : r.raw = some (Json.obj fields))
    (hnomodel : containsKey fields "model" = false) :
    chatRequestMarshal r =
      Except.ok (Json.obj (fields ++ [("model", Json.str r.model)])) ∧
    (fields ++ [("model", Json.str r.model)]).map Prod.fst =
      fields.map Prod.fst ++ ["model"] ∧
    lookupKey (fields ++ [("model", Json.str r.model)]) "model" =
      some (Json.str r.model) ∧
    ∀ k, k ≠ "model" →
      lookupKey (fields ++ [("model", Json.str r.model)]) k =
        lookupKey fields k := by
  refine ⟨?_, by simp, ?_, ?_⟩
  · unfold chatRequestMarshal
    simp [hraw, setKey_of_not_contains _ _ _ hnomodel]
  · rw [lookupKey_append, lookupKey_eq_none_of_not_contains _ _ hnomodel]
    simp [lookupKey]
  · intro k hk
    rw [lookupKey_append]
    cases hl : lookupKey fields k with
    | some v => simp
    | none =>
      have : ¬(("model" : String) = k) := fun h => hk h.symm
      simp [lookupKey, this]

/-- Witness for C10 at a concrete model-less document. -/
theorem C10_marshal_inserts_model_witness :
    (({ raw := some (Json.obj [("messages", Json.arr [])]), model := "m0" } :
        ChatRequest).raw = some (Json.obj [("messages", Json.arr [])])) ∧
    containsKey [("messages", Json.arr [])] "model" = false ∧
    (chatRequestMarshal { raw := some (Json.obj [("messages", Json.arr [])]), model := "m0" } =
      Except.ok (Json.obj ([("messages", Json.arr [])] ++ [("model", Json.str "m0")])) ∧
    ([("messages", Json.arr [])] ++ [("model", Json.str "m0")]).map Prod.fst =
      [("messages", Json.arr [])].map Prod.fst ++ ["model"] ∧
    lookupKey ([("messages", Json.arr [])] ++ [("model", Json.str "m0")]) "model" =
      some (Json.str "m0") ∧
    ∀ k, k ≠ "model" →
      lookupKey ([("messages", Json.arr [])] ++ [("model", Json.str "m0")]) k =
        lookupKey [("messages", Json.arr [])] k) :=
  ⟨rfl, rfl, C10_marshal_inserts_model _ _ rfl rfl⟩

/-! ### C4: conflict-resolution frame property -/

/-- C4: on a request whose raw JSON is an object, the `"tools"`
directive removes exactly the `response_format` key (every other
key/value, including `tools`, is preserved), the `"format"` directive
removes exactly the `tools` key (every other key/value, including
`response_format`, is preserved), and with no directive set `Call`
leaves every key/value of the request's raw JSON unchanged. -/
theorem C4_conflict_resolution_frame
    (c : Client) (r : ChatRequest) (fields : List (String × Json))
    (hraw : r.raw = some (Json.obj fields)) :
    (c.conflictResolution = "tools" →
      applyConflictResolution c r =
        Except.ok { r with raw := some (Json.obj (delKey fields "response_format")) } ∧
      lookupKey (delKey fields "response_format") "response_format" = none ∧
      (∀ k, k ≠ "response_format" →
        lookupKey (delKey fields "response_format") k = lookupKey fields k) ∧
      (delKey fields "response_format").map Prod.fst =
        (fields.map Prod.fst).filter (fun x => !(x == "response_format"))) ∧
    (c.conflictResolution = "format" →
      applyConflictResolution c r =
        Except.ok { r with raw := some (Json.obj (delKey fields "tools")) } ∧
      lookupKey (delKey fields "tools") "tools" = none ∧
      (∀ k, k ≠ "tools" →
        lookupKey (delKey fields "tools") k = lookupKey fields k) ∧
      (delKey fields "tools").map Prod.fst =
        (fields.map Prod.fst).filter (fun x => !(x == "tools"))) ∧
    (c.conflictResolution = "" →
      prepareCallRequest c r = Except.ok { r with model := c.model } ∧
      ({ r with model := c.model } : ChatRequest).raw = r.raw) := by
  refine ⟨fun hdir => ?_, fun hdir => ?_, fun hdir => ?_⟩
  · refine ⟨?_, lookupKey_delKey_self _ _,
      fun k hk => lookupKey_delKey_ne _ _ _ hk, keys_delKey _ _⟩
    unfold applyConflictResolution
    rw [hraw, hdir]
    rfl
  · refine ⟨?_, lookupKey_delKey_self _ _,
      fun k hk => lookupKey_delKey_ne _ _ _ hk, keys_delKey _ _⟩
    unfold applyConflictResolution
    rw [hraw, hdir]
    rfl
  · refine ⟨?_, rfl⟩
    unfold prepareCallRequest
    rw [hdir]
    simp

/-- Witness for C4 at a concrete request carrying both competing keys
and an unrelated key, under the `"tools"` directive. -/
theorem C4_conflict_resolution_frame_witness :
    sampleRequest.raw = some (Json.obj sampleFields) ∧
    ((sampleClientTools.conflictResolution = "tools" →
      applyConflictResolution sampleClientTools sampleRequest =
        Except.ok { sampleRequest with
          raw := some (Json.obj (delKey sampleFields "response_format")) } ∧
      lookupKey (delKey sampleFields "response_format") "response_format" = none ∧
      (∀ k, k ≠ "response_format" →
        lookupKey (delKey sampleFields "response_format") k = lookupKey sampleFields k) ∧
      (delKey sampleFields "response_format").map Prod.fst =
        (sampleFields.map Prod.fst).filter (fun x => !(x == "response_format"))) ∧
    (sampleClientTools.conflictResolution = "format" →
      applyConflictResolution sampleClientTools sampleRequest =
        Except.ok { sampleRequest with
          raw := some (Json.obj (delKey sampleFields "tools")) } ∧
      lookupKey (delKey sampleFields "tools") "tools" = none ∧
      (∀ k, k ≠ "tools" →
        lookupKey (delKey sampleFields "tools") k = lookupKey sampleFields k) ∧
      (delKey sampleFields "tools").map Prod.fst =
        (sampleFields.map Prod.fst).filter (fun x => !(x == "tools"))) ∧
    (sampleClientTools.conflictResolution = "" →
      prepareCallRequest sampleClientTools sampleRequest =
        Except.ok { sampleRequest with model := sampleClientTools.model } ∧
      ({ sampleRequest with model := sampleClientTools.model } : ChatRequest).raw =
        sampleRequest.raw)) :=
  ⟨rfl, C4_conflict_resolution_frame sampleClientTools sampleRequest sampleFields rfl⟩


/-! ### C5: response serialization is verbatim -/

/-- C5: a ChatResponse successfully parsed from an upstream document
serializes back to exactly that document, and serialization depends on
the stored raw document alone — the extracted logging fields are never
used to reconstruct the output. -/
theorem C5_response_marshal_verbatim (data : Json) (r : ChatResponse)
    (h : chatResponseUnmarshal data = Except.ok r) :
    chatResponseMarshal r = Except.ok data ∧
    ∀ rb : ChatResponse, rb.raw = r.raw →
      chatResponseMarshal rb = chatResponseMarshal r := by
  have hraw : r.raw = some data := by
    cases data with
    | obj fields =>
      simp only [chatResponseUnmarshal] at h
      cases h1 : jsonGetString fields "id" with
      | error e => rw [h1] at h; exact Except.noConfusion h
      | ok i =>
        rw [h1] at h
        cases h2 : jsonGetString fields "object" with
        | error e => rw [h2] at h; exact Except.noConfusion h
        | ok o =>
          rw [h2] at h
          cases h3 : jsonGetInt fields "created" with
          | error e => rw [h3] at h; exact Except.noConfusion h
          | ok cr =>
            rw [h3] at h
            cases h4 : jsonGetString fields "model" with
            | error e => rw [h4] at h; exact Except.noConfusion h
            | ok m =>
              rw [h4] at h
              cases h5 : decodeChoices fields with
              | error e => rw [h5] at h; exact Except.noConfusion h
              | ok cs =>
                rw [h5] at h
                cases h6 : decodeUsage fields with
                | error e => rw [h6] at h; exact Except.noConfusion h
                | ok u =>
                  rw [h6] at h
                  injection h with h
                  rw [← h]
    | null => exact Except.noConfusion h
    | bool b => exact Except.noConfusion h
    | num n => exact Except.noConfusion h
    | str s => exact Except.noConfusion h
    | arr xs => exact Except.noConfusion h
  constructor
  · unfold chatResponseMarshal
    rw [hraw]
  · intro rb hb
    unfold chatResponseMarshal
    rw [hb]

/-- Witness for C5 at a concrete upstream document. -/
theorem C5_response_marshal_verbatim_witness :
    chatResponseUnmarshal sampleRespJson = Except.ok sampleResponse ∧
    (chatResponseMarshal sampleResponse = Except.ok sampleRespJson ∧
    ∀ rb : ChatResponse, rb.raw = sampleResponse.raw →
      chatResponseMarshal rb = chatResponseMarshal sampleResponse) :=
  ⟨rfl, C5_response_marshal_verbatim sampleRespJson sampleResponse rfl⟩

/-! ### C8: route resolution -/

/-- C8: GetRoute returns the first route in configuration order whose
name equals the requested model exactly (case-sensitive string
equality, so no wildcard or prefix matching, and with duplicate route
names the first declared is picked), and when no route matches it fails
with the error naming the requested model. -/
theorem C8_get_route_first_exact_match (m : Manager) (model : String) :
    GetRoute m model =
      (match m.routes.find? (fun route => route.name == model) with
       | some route => Except.ok route
       | none => Except.error ("no route found for model " ++ sq ++ model ++ sq)) := by
  show getRouteLoop model m.routes = _
  induction m.routes with
  | nil => rfl
  | cons r rest ih =>
    by_cases h : r.name = model
    · have hb : (r.name == model) = true := by simpa using h
      simp [getRouteLoop, h, List.find?_cons_of_pos, hb]
    · have hb : (r.name == model) = false := by simpa using h
      rw [List.find?_cons_of_neg _ (by simp [hb])]
      simp only [getRouteLoop, if_neg h]
      exact ih

/-! ### C2 and C3: step execution order and failure aggregation -/

theorem runSteps_first_success (m : Manager) (route : Route)
    (outcome : Nat → Except String ChatResponse) (resp : ChatResponse) :
    ∀ (k : Nat) (l : List RouteStep) (s : Nat) (acc : List RouteStepError),
    k < l.length →
    (∀ j, j ≤ k → ∀ step, l[j]? = some step →
      (lookupKey m.providerMap step.provider).isSome) →
    (∀ j, j < k → ∃ e, outcome (s + j) = Except.error e) →
    outcome (s + k) = Except.ok resp →
    runSteps m route outcome s l acc = (List.range' s (k + 1), Except.ok resp) := by
  intro k
  induction k with
  | zero =>
    intro l s acc hk hprov hfail hsucc
    cases l with
    | nil => simp at hk
    | cons step rest =>
      obtain ⟨cfg, hcfg⟩ := Option.isSome_iff_exists.mp
        (hprov 0 (Nat.le_refl 0) step (by simp))
      rw [Nat.add_zero] at hsucc
      simp [runSteps, hcfg, hsucc, List.range']
  | succ k ih =>
    intro l s acc hk hprov hfail hsucc
    cases l with
    | nil => simp at hk
    | cons step rest =>
      obtain ⟨cfg, hcfg⟩ := Option.isSome_iff_exists.mp
        (hprov 0 (Nat.zero_le _) step (by simp))
      obtain ⟨e, he⟩ := hfail 0 (Nat.succ_pos k)
      rw [Nat.add_zero] at he
      have hk' : k < rest.length := by
        simp only [List.length_cons] at hk
        omega
      have hrest : runSteps m route outcome (s + 1) rest
          (acc ++ [({ stepIndex := s, provider := step.provider,
                      model := step.model, error := e } : RouteStepError)]) =
          (List.range' (s + 1) (k + 1), Except.ok resp) := by
        apply ih
        · exact hk'
        · intro j hj st hst
          exact hprov (j + 1) (Nat.succ_le_succ hj) st (by simpa using hst)
        · intro j hj
          obtain ⟨e', he'⟩ := hfail (j + 1) (Nat.succ_lt_succ hj)
          exact ⟨e', by rw [show s + 1 + j = s + (j + 1) by omega]; exact he'⟩
        · rw [show s + 1 + k = s + (k + 1) by omega]
          exact hsucc
      simp [runSteps, hcfg, he, hrest, List.range']

/-- C2: when the route for the request's model resolves, every step up
to index `k` has its provider configured, the calls at indices below `k`
fail and the call at index `k` succeeds, the Manager invokes Call for
exactly the steps `0..k` in that order (the trace is `[0, 1, ..., k]`),
never invokes Call for any later step, and returns step `k`'s
response. -/
theorem C2_first_success_wins (m : Manager) (request : ChatRequest)
    (outcome : Nat → Except String ChatResponse) (route : Route)
    (resp : ChatResponse) (k : Nat)
    (hroute : GetRoute m request.model = Except.ok route)
    (hk : k < route.steps.length)
    (hprov : ∀ j, j ≤ k → ∀ step, route.steps[j]? = some step →
      (lookupKey m.providerMap step.provider).isSome)
    (hfail : ∀ j, j < k → ∃ e, outcome j = Except.error e)
    (hsucc : outcome k = Except.ok resp) :
    ExecuteWithTracing m outcome request = (List.range (k + 1), Except.ok resp) := by
  unfold ExecuteWithTracing
  rw [hroute, List.range_eq_range']
  exact runSteps_first_success m route outcome resp k route.steps 0 [] hk hprov
    (by simpa using hfail) (by simpa using hsucc)

/-- Witness for C2 on the two-step sample route: step 0 fails, step 1
succeeds; exactly steps 0 and 1 are called, in order, and step 1's
response is returned. -/
theorem C2_first_success_wins_witness :
    GetRoute sampleManager sampleExecRequest.model = Except.ok sampleRoute ∧
    1 < sampleRoute.steps.length ∧
    (∀ j, j ≤ 1 → ∀ step, sampleRoute.steps[j]? = some step →
      (lookupKey sampleManager.providerMap step.provider).isSome) ∧
    (∀ j, j < 1 → ∃ e, sampleOutcome j = Except.error e) ∧
    sampleOutcome 1 = Except.ok sampleResponse ∧
    ExecuteWithTracing sampleManager sampleOutcome sampleExecRequest =
      (List.range 2, Except.ok sampleResponse) := by
  have hprov : ∀ j, j ≤ 1 → ∀ step, sampleRoute.steps[j]? = some step →
      (lookupKey sampleManager.providerMap step.provider).isSome := by
    intro j hj step hstep
    interval_cases j
    · rw [show sampleRoute.steps[0]? = some sampleStep1 from rfl] at hstep
      injection hstep with h
      rw [← h]
      rfl
    · rw [show sampleRoute.steps[1]? = some sampleStep2 from rfl] at hstep
      injection hstep with h
      rw [← h]
      rfl
  have hfail : ∀ j, j < 1 → ∃ e, sampleOutcome j = Except.error e := by
    intro j hj
    interval_cases j
    exact ⟨"boom", rfl⟩
  exact ⟨rfl, by decide, hprov, hfail, rfl,
    C2_first_success_wins sampleManager sampleExecRequest sampleOutcome
      sampleRoute sampleResponse 1 rfl (by decide) hprov hfail rfl⟩

theorem expectedStepErrors_length (msgs : Nat → String) :
    ∀ (l : List RouteStep) (s : Nat), (expectedStepErrors msgs s l).length = l.length := by
  intro l
  induction l with
  | nil => intro s; rfl
  | cons step rest ih => intro s; simp [expectedStepErrors, ih]

theorem expectedStepErrors_getElem (msgs : Nat → String) :
    ∀ (l : List RouteStep) (s j : Nat) (step : RouteStep), l[j]? = some step →
      (expectedStepErrors msgs s l)[j]? =
        some { stepIndex := s + j, provider := step.provider,
               model := step.model, error := msgs (s + j) } := by
  intro l
  induction l with
  | nil => intro s j step h; exact Option.noConfusion h
  | cons hd rest ih =>
    intro s j step h
    cases j with
    | zero =>
      simp at h
      simp [expectedStepErrors, ← h]
    | succ j =>
      simp at h
      have := ih (s + 1) j step h
      simpa [expectedStepErrors, show s + 1 + j = s + (j + 1) by omega] using this

theorem runSteps_all_fail (m : Manager) (route : Route)
    (outcome : Nat → Except String ChatResponse) (msgs : Nat → String) :
    ∀ (l : List RouteStep) (s : Nat) (acc : List RouteStepError),
    (∀ step ∈ l, (lookupKey m.providerMap step.provider).isSome) →
    (∀ j, j < l.length → outcome (s + j) = Except.error (msgs (s + j))) →
    (runSteps m route outcome s l acc).2 =
      Except.error (ExecError.routeError
        { route := route, errors := acc ++ expectedStepErrors msgs s l }) := by
  intro l
  induction l with
  | nil =>
    intro s acc hprov hfail
    simp [runSteps, expectedStepErrors]
  | cons step rest ih =>
    intro s acc hprov hfail
    obtain ⟨cfg, hcfg⟩ := Option.isSome_iff_exists.mp
      (hprov step (List.mem_cons_self _ _))
    have he : outcome s = Except.error (msgs s) := by
      have := hfail 0 (Nat.succ_pos _)
      simpa using this
    have hrest := ih (s + 1)
      (acc ++ [({ stepIndex := s, provider := step.provider,
                  model := step.model, error := msgs s } : RouteStepError)])
      (fun st hst => hprov st (List.mem_cons_of_mem _ hst))
      (fun j hj => by
        have := hfail (j + 1) (Nat.succ_lt_succ hj)
        simpa [show s + (j + 1) = s + 1 + j by omega] using this)
    simp only [runSteps, hcfg, he]
    rw [hrest]
    simp [expectedStepErrors]

/-- C3: when the route resolves, every step's provider is configured and
every call fails, Execute returns a RouteError whose `errors` list has
exactly one RouteStepError per step, in original step order, each
carrying that step's own index, provider name and model (and the call's
error message). -/
theorem C3_all_steps_fail_aggregate (m : Manager) (request : ChatRequest)
    (outcome : Nat → Except String ChatResponse) (route : Route)
    (msgs : Nat → String)
    (hroute : GetRoute m request.model = Except.ok route)
    (hprov : ∀ step ∈ route.steps, (lookupKey m.providerMap step.provider).isSome)
    (hfail : ∀ j, j < route.steps.length → outcome j = Except.error (msgs j)) :
    (ExecuteWithTracing m outcome request).2 =
      Except.error (ExecError.routeError
        { route := route, errors := expectedStepErrors msgs 0 route.steps }) ∧
    (expectedStepErrors msgs 0 route.steps).length = route.steps.length ∧
    ∀ j step, route.steps[j]? = some step →
      (expectedStepErrors msgs 0 route.steps)[j]? =
        some ({ stepIndex := j, provider := step.provider,
                model := step.model, error := msgs j } : RouteStepError) := by
  refine ⟨?_, expectedStepErrors_length msgs route.steps 0, ?_⟩
  · unfold ExecuteWithTracing
    rw [hroute]
    have := runSteps_all_fail m route outcome msgs route.steps 0 [] hprov
      (by simpa using hfail)
    simpa using this
  · intro j step h
    have := expectedStepErrors_getElem msgs route.steps 0 j step h
    simpa using this

/-- Witness for C3 on the two-step sample route with every call failing:
the aggregate carries exactly the two step errors in order. -/
theorem C3_all_steps_fail_aggregate_witness :
    GetRoute sampleManager sampleExecRequest.model = Except.ok sampleRoute ∧
    (∀ step ∈ sampleRoute.steps,
      (lookupKey sampleManager.providerMap step.provider).isSome) ∧
    (∀ j, j < sampleRoute.steps.length →
      sampleOutcomeFail j = Except.error ((fun _ => "boom") j)) ∧
    ((ExecuteWithTracing sampleManager sampleOutcomeFail sampleExecRequest).2 =
      Except.error (ExecError.routeError
        { route := sampleRoute,
          errors := expectedStepErrors (fun _ => "boom") 0 sampleRoute.steps }) ∧
    (expectedStepErrors (fun _ => "boom") 0 sampleRoute.steps).length =
      sampleRoute.steps.length ∧
    ∀ j step, sampleRoute.steps[j]? = some step →
      (expectedStepErrors (fun _ => "boom") 0 sampleRoute.steps)[j]? =
        some ({ stepIndex := j, provider := step.provider,
                model := step.model, error := "boom" } : RouteStepError)) := by
  have hprov : ∀ step ∈ sampleRoute.steps,
      (lookupKey sampleManager.providerMap step.provider).isSome := by
    intro step hstep
    have hor : step = sampleStep1 ∨ step = sampleStep2 := by
      simpa [sampleRoute] using hstep
    rcases hor with h | h <;> rw [h] <;> rfl
  exact ⟨rfl, hprov, fun j hj => rfl,
    C3_all_steps_fail_aggregate sampleManager sampleExecRequest sampleOutcomeFail
      sampleRoute (fun _ => "boom") rfl hprov (fun j hj => rfl)⟩

/-! ### C6: timeout resolution -/

/-- C6 counterexample: a step with no timeout of its own, under a
configuration whose default timeout is 60s.  The spec's resolution order
(`resolvedTimeoutSpec`) yields 60s, but the client built by
NewClientWithRouteStep gets 30s: the call site passes the literal
`"30s"` to GetTimeout and never consults the configured default. -/
theorem C6_counterexample :
    sampleStep1.timeout = "" ∧
    sampleCfg.defaultTimeout = "60s" ∧
    resolvedTimeoutSpec sampleCfg sampleStep1 = 60 * 1000000000 ∧
    (NewClientWithRouteStep sampleProvider1 sampleStep1).timeout = 30 * 1000000000 ∧
    (NewClientWithRouteStep sampleProvider1 sampleStep1).timeout ≠
      resolvedTimeoutSpec sampleCfg sampleStep1 :=
  ⟨rfl, rfl, rfl, rfl, by decide⟩

/-- C6 (amended): the client's resolved timeout is the step's own
timeout when set and parseable; otherwise (step timeout absent, or set
but unparseable) it is the hard-coded 30-second fallback.  The
configured default timeout plays no role: NewClientWithRouteStep passes
the literal `"30s"` as GetTimeout's default. -/
theorem C6_amended_timeout_resolution (providerCfg : Provider) (step : RouteStep) :
    (∀ d, parseDuration step.timeout = some d →
      (NewClientWithRouteStep providerCfg step).timeout = d) ∧
    (step.timeout = "" →
      (NewClientWithRouteStep providerCfg step).timeout = thirtySeconds) ∧
    (step.timeout ≠ "" → parseDuration step.timeout = none →
      (NewClientWithRouteStep providerCfg step).timeout = thirtySeconds) := by
  refine ⟨?_, ?_, ?_⟩
  · intro d hd
    by_cases hempty : step.timeout = ""
    · rw [hempty] at hd
      exact Option.noConfusion hd
    · show GetTimeout step.timeout "30s" = d
      simp [GetTimeout, hempty, hd]
  · intro hempty
    show GetTimeout step.timeout "30s" = thirtySeconds
    rw [hempty]
    rfl
  · intro hempty hnone
    show GetTimeout step.timeout "30s" = thirtySeconds
    simp [GetTimeout, hempty, hnone]

/-- Witness for the amended C6 at a step carrying its own 45s timeout. -/
theorem C6_amended_timeout_resolution_witness :
    parseDuration sampleStepTimeout.timeout = some 45000000000 ∧
    (NewClientWithRouteStep sampleProvider1 sampleStepTimeout).timeout = 45000000000 :=
  ⟨rfl,
    (C6_amended_timeout_resolution sampleProvider1 sampleStepTimeout).1
      45000000000 rfl⟩

/-! ### C7: upstream status handling -/

/-- C7 counterexample: HTTP status 201 is a 2xx status and the body
decodes as a ChatResponse, yet Call fails with the status error carrying
201 and the raw body — the code tests `resp.StatusCode != http.StatusOK`
(200), not membership in the 2xx class. -/
theorem C7_counterexample :
    (200 ≤ 201 ∧ 201 < 300) ∧
    okParse "[]" = Except.ok sampleResponse ∧
    callHandleResponse okParse 201 "[]" =
      Except.error (CallError.upstreamStatus 201 "[]") :=
  ⟨⟨by decide, by decide⟩, rfl, rfl⟩

/-- C7 (amended): Call fails with the UpstreamStatusError carrying the
HTTP status code and the raw response body exactly when the status
differs from 200; for status 200 it never fails with a status error
(so a 2xx status other than 200 is also treated as a failure). -/
theorem C7_amended_status_check
    (parseResp : String → Except String ChatResponse) (status : Nat) (body : String) :
    (status ≠ 200 → callHandleResponse parseResp status body =
      Except.error (CallError.upstreamStatus status body)) ∧
    (status = 200 → ∀ s b, callHandleResponse parseResp status body ≠
      Except.error (CallError.upstreamStatus s b)) := by
  constructor
  · intro h
    simp [callHandleResponse, h]
  · intro h s b
    subst h
    cases hp : parseResp body with
    | ok r => simp [callHandleResponse, hp]
    | error e => simp [callHandleResponse, hp]

/-- Witness for the amended C7 at statuses 503 and 200. -/
theorem C7_amended_status_check_witness :
    (503 ≠ 200 ∧ callHandleResponse okParse 503 "oops" =
      Except.error (CallError.upstreamStatus 503 "oops")) ∧
    (200 = 200 ∧ ∀ s b, callHandleResponse okParse 200 "x" ≠
      Except.error (CallError.upstreamStatus s b)) :=
  ⟨⟨by decide, (C7_amended_status_check okParse 503 "oops").1 (by decide)⟩,
   ⟨rfl, (C7_amended_status_check okParse 200 "x").2 rfl⟩⟩

/-! ### C9: logging truncation -/

/-- C9 counterexample: `longAccented` is 51 characters (102 bytes) of
`é`; it is at most 100 characters long, yet truncateContent shortens it
to its first 100 bytes plus the marker, because Go `len` and slicing
count bytes, not characters. -/
theorem C9_counterexample :
    utf8CharCount longAccented = 51 ∧
    utf8CharCount longAccented ≤ 100 ∧
    truncateContent longAccented ≠ longAccented ∧
    truncateContent longAccented = longAccented.take 100 ++ truncDots :=
  ⟨by decide, by decide, by decide, by decide⟩

/-- C9 (amended): with lengths measured in bytes, the logging truncation
leaves content of at most 100 bytes unchanged and shortens content of
over 100 bytes to its 100-byte prefix with the `"..."` marker appended.
(The projection is a freshly constructed value, so the original content,
and hence ordinary parsing and serialization, are unaffected.) -/
theorem C9_amended_truncation_bytes (content : List Nat) :
    (content.length ≤ 100 → truncateContent content = content) ∧
    (100 < content.length →
      truncateContent content = content.take 100 ++ truncDots) := by
  constructor
  · intro h
    simp [truncateContent, h]
  · intro h
    have hlt : ¬(content.length ≤ 100) := by omega
    simp [truncateContent, hlt]

/-- Witness for the amended C9 at a short and a long byte string. -/
theorem C9_amended_truncation_bytes_witness :
    (([1, 2, 3] : List Nat).length ≤ 100 ∧ truncateContent [1, 2, 3] = [1, 2, 3]) ∧
    (100 < longAccented.length ∧
      truncateContent longAccented = longAccented.take 100 ++ truncDots) :=
  ⟨⟨by decide, (C9_amended_truncation_bytes [1, 2, 3]).1 (by decide)⟩,
   ⟨by decide, (C9_amended_truncation_bytes longAccented).2 (by decide)⟩⟩

end AIGateway
